import Mathlib

/-!
# Verification of the stock-dashboard indicator & signal pipeline

Shallow embedding of the computational core of `src/app.py` (and the shared
parts of `src/app_pro.py`): OHLCV resampling, manual technical indicators
(MA / RSI / stochastic KD / Bollinger bands), the local signal scanner, and
the JSON payload preparation for the narrative (LLM) collaborator.

Conventions of the embedding:
* prices and volumes are rationals (`ℚ`), timestamps are natural numbers
  (minutes since an epoch);
* a float `NaN` (pandas' marker for "undefined") is embedded as
  `Option.none`; a series column is `List (Option ℚ)`;
* pandas `rolling(w)` with its default `min_periods = w` yields a defined
  value at index `i` iff `w ≤ i+1` and no `NaN` occurs in the window — our
  rolling combinators operate on fully-defined windows only;
* where IEEE float semantics matter (division by zero inside `RSI`/`RSV`)
  the embedding reproduces the float outcome (`x/0 = ±∞`, `0/0 = NaN`) by
  explicit case splits, documented at the definition.
-/

namespace StockDash

/-- One raw OHLCV candle, as produced by the market-data API after the
`astype(float)` conversion in `fetch_fugle_data` / `process_data`.
`ts` is the timestamp in minutes (the `date` index); `opn` is the `Open`
column (`open` is a Lean keyword). -/
structure Candle where
  ts : ℕ
  opn : ℚ
  high : ℚ
  low : ℚ
  close : ℚ
  volume : ℚ
deriving DecidableEq, Repr

/-- One resampled OHLCV bar. `key` is the left bucket boundary produced by
`df.resample(timeframe)`. -/
structure Bar where
  key : ℕ
  opn : ℚ
  high : ℚ
  low : ℚ
  close : ℚ
  volume : ℚ
deriving DecidableEq, Repr

/-- Maximum of a list of rationals (`'High': 'max'` aggregate); the `[]`
case is never reached on a non-empty bucket. -/
def listMax : List ℚ → ℚ
  | [] => 0
  | x :: xs => xs.foldl max x

/-- Minimum of a list of rationals (`'Low': 'min'` aggregate). -/
def listMin : List ℚ → ℚ
  | [] => 0
  | x :: xs => xs.foldl min x

/-- The left boundary of the resampling bucket that timestamp `t` falls
into: `floor(t / P) * P`, which is what `df.resample` computes for a
fixed-width frequency measured from the epoch. -/
def bucketKey (P t : ℕ) : ℕ := t / P * P

/-- The candles contributing to bucket `k`, in their original order
(pandas groups rows of the time-sorted frame by bucket). -/
def bucketOf (P k : ℕ) (cs : List Candle) : List Candle :=
  cs.filter fun c => bucketKey P c.ts == k

/-- The distinct bucket keys occupied by at least one candle, in
increasing order.  `df.resample(...).apply(...)` materialises every bucket
between the first and last key, but the trailing `.dropna()` removes
exactly the rows whose aggregates are `NaN`, i.e. the buckets holding no
candle; the composite therefore enumerates exactly the occupied keys,
sorted. -/
def occupiedKeys (P : ℕ) (cs : List Candle) : List ℕ :=
  ((cs.map fun c => bucketKey P c.ts).dedup).insertionSort (· ≤ ·)

/-- The OHLCV aggregation dictionary
`{'Open': 'first', 'High': 'max', 'Low': 'min', 'Close': 'last',
'Volume': 'sum'}` applied to the candles `g` of one bucket.  On the
non-`NaN` columns of this frame, the groupby aggregates `'first'`/`'last'`
are the first/last row of the group in frame order. -/
def aggBar (k : ℕ) (g : List Candle) : Bar :=
  { key := k
    opn := (g.head?.elim 0 fun c => c.opn)
    high := listMax (g.map fun c => c.high)
    low := listMin (g.map fun c => c.low)
    close := (g.getLast?.elim 0 fun c => c.close)
    volume := (g.map fun c => c.volume).sum }

/-- `df.resample(timeframe).apply(ohlc_dict).dropna()` of
`fetch_fugle_data` (src/app.py line 60) and `process_data`
(src/app_pro.py line 50). -/
def resample (P : ℕ) (cs : List Candle) : List Bar :=
  (occupiedKeys P cs).map fun k => aggBar k (bucketOf P k cs)

/-- `c` is an earliest candle of `g`: it belongs to `g` and no candle of
`g` has a smaller timestamp. -/
def IsEarliest (c : Candle) (g : List Candle) : Prop :=
  c ∈ g ∧ ∀ d ∈ g, c.ts ≤ d.ts

/-- `c` is a latest candle of `g`. -/
def IsLatest (c : Candle) (g : List Candle) : Prop :=
  c ∈ g ∧ ∀ d ∈ g, d.ts ≤ c.ts

lemma mem_occupiedKeys {P k : ℕ} {cs : List Candle} :
    k ∈ occupiedKeys P cs ↔ ∃ c ∈ cs, bucketKey P c.ts = k := by
  unfold occupiedKeys
  rw [(List.perm_insertionSort (· ≤ ·) _).mem_iff, List.mem_dedup, List.mem_map]

lemma nodup_occupiedKeys (P : ℕ) (cs : List Candle) : (occupiedKeys P cs).Nodup :=
  ((List.perm_insertionSort (· ≤ ·) _).nodup_iff).2 (List.nodup_dedup _)

lemma sorted_occupiedKeys (P : ℕ) (cs : List Candle) :
    (occupiedKeys P cs).Pairwise (· < ·) := by
  have hs : (occupiedKeys P cs).Sorted (· ≤ ·) :=
    List.sorted_insertionSort (· ≤ ·) _
  exact List.Sorted.lt_of_le hs (nodup_occupiedKeys P cs)

lemma bucketOf_ne_nil {P k : ℕ} {cs : List Candle}
    (hk : k ∈ occupiedKeys P cs) : bucketOf P k cs ≠ [] := by
  obtain ⟨c, hc, hkey⟩ := mem_occupiedKeys.1 hk
  have : c ∈ bucketOf P k cs :=
    List.mem_filter.2 ⟨hc, by simp [hkey]⟩
  intro h
  simp [h] at this

lemma pairwise_ts_bucketOf {P k : ℕ} {cs : List Candle}
    (h : cs.Pairwise fun a c => a.ts < c.ts) :
    (bucketOf P k cs).Pairwise fun a c => a.ts < c.ts :=
  List.Pairwise.sublist (List.filter_sublist _) h

lemma head_isEarliest {g : List Candle} {e : Candle}
    (hh : g.head? = some e) (hs : g.Pairwise fun a c => a.ts < c.ts) :
    IsEarliest e g := by
  cases g with
  | nil => simp at hh
  | cons a t =>
    obtain rfl : a = e := by simpa using hh
    rw [List.pairwise_cons] at hs
    refine ⟨List.mem_cons_self _ _, ?_⟩
    intro d hd
    rcases List.mem_cons.1 hd with rfl | hdt
    · exact le_refl _
    · exact le_of_lt (hs.1 d hdt)

lemma getLast_isLatest {g : List Candle} {e : Candle}
    (hh : g.getLast? = some e) (hs : g.Pairwise fun a c => a.ts < c.ts) :
    IsLatest e g := by
  induction g with
  | nil => simp at hh
  | cons a t ih =>
    cases t with
    | nil =>
      obtain rfl : a = e := by simpa [List.getLast?] using hh
      refine ⟨List.mem_cons_self _ _, ?_⟩
      intro d hd
      rcases List.mem_cons.1 hd with rfl | h
      · exact le_refl _
      · simp at h
    | cons b t' =>
      rw [List.pairwise_cons] at hs
      have hh' : (b :: t').getLast? = some e := by
        simpa [List.getLast?_cons_cons] using hh
      obtain ⟨hmem, hle⟩ := ih hh' hs.2
      refine ⟨List.mem_cons_of_mem _ hmem, ?_⟩
      intro d hd
      rcases List.mem_cons.1 hd with rfl | hdt
      · exact le_of_lt (lt_of_lt_of_le (hs.1 b (List.mem_cons_self _ _)) (hle b (List.mem_cons_self _ _)))
      · exact hle d hdt

lemma sum_map_split (l : List ℕ) (f g : ℕ → ℚ) :
    (l.map fun k => f k + g k).sum = (l.map f).sum + (l.map g).sum := by
  induction l with
  | nil => simp
  | cons a t ih => simp [ih]; ring

lemma sum_ite_not_mem {a : ℕ} {ks : List ℕ} (q : ℚ) (h : a ∉ ks) :
    (ks.map fun k => if a = k then q else 0).sum = 0 := by
  induction ks with
  | nil => simp
  | cons b t ih =>
    have hab : a ≠ b := fun hab => h (hab ▸ List.mem_cons_self _ _)
    have hat : a ∉ t := fun hat => h (List.mem_cons_of_mem _ hat)
    simp [hab, ih hat]

lemma sum_ite_single {a : ℕ} {ks : List ℕ} (q : ℚ)
    (hmem : a ∈ ks) (hnd : ks.Nodup) :
    (ks.map fun k => if a = k then q else 0).sum = q := by
  induction ks with
  | nil => simp at hmem
  | cons b t ih =>
    rw [List.nodup_cons] at hnd
    rcases List.mem_cons.1 hmem with rfl | hat
    · simp [sum_ite_not_mem q hnd.1]
    · have hab : a ≠ b := fun hab => hnd.1 (hab ▸ hat)
      simp [hab, ih hat hnd.2]

lemma volume_partition (P : ℕ) (ks : List ℕ) (cs : List Candle)
    (hnd : ks.Nodup) (hcov : ∀ c ∈ cs, bucketKey P c.ts ∈ ks) :
    (ks.map fun k => ((bucketOf P k cs).map fun c => c.volume).sum).sum =
      (cs.map fun c => c.volume).sum := by
  induction cs with
  | nil => simp [bucketOf]
  | cons c t ih =>
    have hstep : ∀ k, ((bucketOf P k (c :: t)).map fun d => d.volume).sum =
        (if bucketKey P c.ts = k then c.volume else 0) +
          ((bucketOf P k t).map fun d => d.volume).sum := by
      intro k
      by_cases hk : bucketKey P c.ts = k
      · simp [bucketOf, List.filter_cons, hk]
      · simp [bucketOf, List.filter_cons, hk]
    have hcov' : ∀ d ∈ t, bucketKey P d.ts ∈ ks :=
      fun d hd => hcov d (List.mem_cons_of_mem _ hd)
    calc (ks.map fun k => ((bucketOf P k (c :: t)).map fun d => d.volume).sum).sum
        = (ks.map fun k => (if bucketKey P c.ts = k then c.volume else 0) +
            ((bucketOf P k t).map fun d => d.volume).sum).sum := by
          congr 1; exact List.map_congr_left fun k _ => hstep k
      _ = (ks.map fun k => if bucketKey P c.ts = k then c.volume else 0).sum +
            (ks.map fun k => ((bucketOf P k t).map fun d => d.volume).sum).sum :=
          sum_map_split ks _ _
      _ = c.volume + (t.map fun d => d.volume).sum := by
          rw [sum_ite_single c.volume (hcov c (List.mem_cons_self _ _)) hnd, ih hcov']
      _ = ((c :: t).map fun d => d.volume).sum := by simp

/-- C1: for every non-empty, time-sorted input series and period,
`resample` aggregates each bucket as: open = open of the earliest candle
in the bucket, close = close of the latest, high = max of highs,
low = min of lows, volume = sum of volumes; and every bucket present in
the output contains at least one input candle. -/
theorem resample_bucket_aggregation (P : ℕ) (cs : List Candle) (b : Bar)
    (_hP : 0 < P) (_hne : cs ≠ [])
    (hsorted : cs.Pairwise fun a c => a.ts < c.ts)
    (hb : b ∈ resample P cs) :
    bucketOf P b.key cs ≠ [] ∧
    (∃ e, IsEarliest e (bucketOf P b.key cs) ∧ b.opn = e.opn) ∧
    (∃ l, IsLatest l (bucketOf P b.key cs) ∧ b.close = l.close) ∧
    b.high = listMax ((bucketOf P b.key cs).map fun c => c.high) ∧
    b.low = listMin ((bucketOf P b.key cs).map fun c => c.low) ∧
    b.volume = ((bucketOf P b.key cs).map fun c => c.volume).sum := by
  obtain ⟨k, hk, rfl⟩ := List.mem_map.1 hb
  have hkey : (aggBar k (bucketOf P k cs)).key = k := rfl
  rw [hkey]
  have hne' : bucketOf P k cs ≠ [] := bucketOf_ne_nil hk
  have hps : (bucketOf P k cs).Pairwise fun a c => a.ts < c.ts :=
    pairwise_ts_bucketOf hsorted
  obtain ⟨e, te, hg⟩ := List.exists_cons_of_ne_nil hne'
  have hhead : (bucketOf P k cs).head? = some e := by rw [hg]; rfl
  have hlast : ∃ l, (bucketOf P k cs).getLast? = some l := by
    rw [hg]; exact ⟨(e :: te).getLast (by simp), List.getLast?_eq_getLast _ _⟩
  obtain ⟨l, hl⟩ := hlast
  refine ⟨hne', ⟨e, head_isEarliest hhead hps, ?_⟩,
    ⟨l, getLast_isLatest hl hps, ?_⟩, rfl, rfl, rfl⟩
  · show (bucketOf P k cs).head?.elim 0 (fun c => c.opn) = e.opn
    rw [hhead]; rfl
  · show (bucketOf P k cs).getLast?.elim 0 (fun c => c.close) = l.close
    rw [hl]; rfl

/-- Concrete three-candle series used to witness the resampling claims. -/
def exCandles : List Candle :=
  [⟨0, 10, 12, 9, 11, 100⟩, ⟨1, 11, 13, 10, 12, 50⟩, ⟨2, 12, 14, 11, 13, 25⟩]

/-- Witness for C1 at period 2 on `exCandles`: the first output bar
aggregates the two candles of bucket 0. -/
theorem resample_bucket_aggregation_witness :
    bucketOf 2 (Bar.mk 0 10 13 9 12 150).key exCandles ≠ [] ∧
    (∃ e, IsEarliest e (bucketOf 2 (Bar.mk 0 10 13 9 12 150).key exCandles) ∧
      (Bar.mk 0 10 13 9 12 150).opn = e.opn) ∧
    (∃ l, IsLatest l (bucketOf 2 (Bar.mk 0 10 13 9 12 150).key exCandles) ∧
      (Bar.mk 0 10 13 9 12 150).close = l.close) ∧
    (Bar.mk 0 10 13 9 12 150).high =
      listMax ((bucketOf 2 (Bar.mk 0 10 13 9 12 150).key exCandles).map fun c => c.high) ∧
    (Bar.mk 0 10 13 9 12 150).low =
      listMin ((bucketOf 2 (Bar.mk 0 10 13 9 12 150).key exCandles).map fun c => c.low) ∧
    (Bar.mk 0 10 13 9 12 150).volume =
      ((bucketOf 2 (Bar.mk 0 10 13 9 12 150).key exCandles).map fun c => c.volume).sum := by
  refine resample_bucket_aggregation 2 exCandles (Bar.mk 0 10 13 9 12 150)
    (by decide) (by decide) (by decide) ?_
  have hkeys : occupiedKeys 2 exCandles = [0, 2] := by decide
  have hb0 : bucketOf 2 0 exCandles =
      [⟨0, 10, 12, 9, 11, 100⟩, ⟨1, 11, 13, 10, 12, 50⟩] := by decide
  have hb2 : bucketOf 2 2 exCandles = [⟨2, 12, 14, 11, 13, 25⟩] := by decide
  have hres : resample 2 exCandles =
      [Bar.mk 0 10 13 9 12 150, Bar.mk 2 12 14 11 13 25] := by
    show (occupiedKeys 2 exCandles).map _ = _
    rw [hkeys, List.map_cons, List.map_cons, List.map_nil, hb0, hb2]
    norm_num [aggBar, listMax, listMin, max_def, min_def, List.head?, List.getLast?]
  rw [hres]
  exact List.mem_cons_self _ _

/-- C8: for every non-empty series and positive period, every output bar
of `resample` draws on at least one source candle, the bars are strictly
ordered by bucket key, and total volume is conserved. -/
theorem resample_relational (P : ℕ) (cs : List Candle)
    (_hP : 0 < P) (_hne : cs ≠ []) :
    (∀ b ∈ resample P cs, bucketOf P b.key cs ≠ []) ∧
    (resample P cs).Pairwise (fun b c => b.key < c.key) ∧
    ((resample P cs).map fun b => b.volume).sum = (cs.map fun c => c.volume).sum := by
  refine ⟨?_, ?_, ?_⟩
  · intro b hb
    obtain ⟨k, hk, rfl⟩ := List.mem_map.1 hb
    exact bucketOf_ne_nil hk
  · unfold resample
    rw [List.pairwise_map]
    exact sorted_occupiedKeys P cs
  · unfold resample
    rw [List.map_map]
    have : ((occupiedKeys P cs).map fun k =>
        ((bucketOf P k cs).map fun c => c.volume).sum).sum =
        (cs.map fun c => c.volume).sum :=
      volume_partition P (occupiedKeys P cs) cs (nodup_occupiedKeys P cs)
        (fun c hc => mem_occupiedKeys.2 ⟨c, hc, rfl⟩)
    simpa [Function.comp] using this

/-- Concrete four-candle series used to witness the relational resampling
claim. -/
def exCandles8 : List Candle :=
  [⟨0, 5, 6, 4, 5, 10⟩, ⟨1, 5, 7, 5, 6, 20⟩, ⟨3, 6, 8, 6, 7, 30⟩, ⟨7, 7, 9, 6, 8, 40⟩]

/-- Witness for C8 at period 3 on `exCandles8`. -/
theorem resample_relational_witness :
    (∀ b ∈ resample 3 exCandles8, bucketOf 3 b.key exCandles8 ≠ []) ∧
    (resample 3 exCandles8).Pairwise (fun b c => b.key < c.key) ∧
    ((resample 3 exCandles8).map fun b => b.volume).sum =
      (exCandles8.map fun c => c.volume).sum :=
  resample_relational 3 exCandles8 (by decide) (by decide)

/-! ## Rolling windows

pandas `Series.rolling(w)` with the default `min_periods` produces a
defined value at index `i` exactly when the trailing window of `w`
entries exists, i.e. `w ≤ i+1 ≤ length`. -/

/-- The trailing window of `w` entries ending at index `i`, when it
exists. -/
def windowAt (w : ℕ) (xs : List ℚ) (i : ℕ) : Option (List ℚ) :=
  if w ≤ i + 1 ∧ i < xs.length then some ((xs.drop (i + 1 - w)).take w) else none

/-- `rolling(w).mean()` at index `i`. -/
def rollingMean (w : ℕ) (xs : List ℚ) (i : ℕ) : Option ℚ :=
  (windowAt w xs i).map fun ws => ws.sum / (w : ℚ)

/-- `rolling(w).max()` at index `i`. -/
def rollingMax (w : ℕ) (xs : List ℚ) (i : ℕ) : Option ℚ :=
  (windowAt w xs i).map listMax

/-- `rolling(w).min()` at index `i`. -/
def rollingMin (w : ℕ) (xs : List ℚ) (i : ℕ) : Option ℚ :=
  (windowAt w xs i).map listMin

lemma windowAt_subset {w i : ℕ} {xs ws : List ℚ}
    (h : windowAt w xs i = some ws) : ∀ y ∈ ws, y ∈ xs := by
  unfold windowAt at h
  split at h
  · cases h
    intro y hy
    exact List.drop_subset _ _ (List.take_subset _ _ hy)
  · cases h

/-! ## RSI (src/app.py lines 18–25) -/

/-- `df['Close'].diff()`: the first entry is `NaN` (no predecessor), the
entry at `i+1` is `close_{i+1} − close_i`. -/
def diffs (xs : List ℚ) : List (Option ℚ) :=
  match xs with
  | [] => []
  | _ :: t => none :: List.zipWith (fun b a => some (b - a)) t xs

/-- `delta.where(delta > 0, 0)` (line 20).  In pandas a `NaN` delta
compares as *not* greater than zero, so the leading `NaN` becomes the
fallback `0`, exactly like every non-positive delta. -/
def gains (xs : List ℚ) : List ℚ :=
  (diffs xs).map fun o =>
    match o with
    | some d => if 0 < d then d else 0
    | none => 0

/-- `(-delta).where(delta < 0, 0)` (line 21), same `NaN` treatment. -/
def losses (xs : List ℚ) : List ℚ :=
  (diffs xs).map fun o =>
    match o with
    | some d => if d < 0 then -d else 0
    | none => 0

/-- `gain.rolling(window=6).mean()` (line 22). -/
def avgGain (xs : List ℚ) (i : ℕ) : Option ℚ := rollingMean 6 (gains xs) i

/-- `loss.rolling(window=6).mean()` (line 23). -/
def avgLoss (xs : List ℚ) (i : ℕ) : Option ℚ := rollingMean 6 (losses xs) i

/-- `rs = avg_gain / avg_loss; df['RSI'] = 100 − 100/(1+rs)`
(lines 24–25), with the IEEE float outcomes of the unguarded division
made explicit: for `avg_loss = 0` and `avg_gain > 0` the float quotient
is `+∞` and `100 − 100/(1+∞) = 100`; for `0/0` it is `NaN`, which
propagates, leaving RSI undefined. -/
def rsi (xs : List ℚ) (i : ℕ) : Option ℚ :=
  match avgGain xs i, avgLoss xs i with
  | some g, some l =>
      if l = 0 then (if g = 0 then none else some 100)
      else some (100 - 100 / (1 + g / l))
  | _, _ => none

lemma gains_nonneg {xs : List ℚ} : ∀ y ∈ gains xs, 0 ≤ y := by
  intro y hy
  obtain ⟨o, _, rfl⟩ := List.mem_map.1 hy
  match o with
  | none => exact le_refl 0
  | some d =>
    by_cases h : 0 < d
    · simp [h]; exact le_of_lt h
    · simp [h]

lemma losses_nonneg {xs : List ℚ} : ∀ y ∈ losses xs, 0 ≤ y := by
  intro y hy
  obtain ⟨o, _, rfl⟩ := List.mem_map.1 hy
  match o with
  | none => exact le_refl 0
  | some d =>
    by_cases h : d < 0
    · simp [h]; linarith
    · simp [h]

lemma avgGain_nonneg {xs : List ℚ} {i : ℕ} {g : ℚ}
    (h : avgGain xs i = some g) : 0 ≤ g := by
  unfold avgGain rollingMean at h
  cases hw : windowAt 6 (gains xs) i with
  | none => rw [hw] at h; cases h
  | some ws =>
    rw [hw] at h
    cases h
    have hsum : 0 ≤ ws.sum :=
      List.sum_nonneg fun y hy => gains_nonneg y (windowAt_subset hw y hy)
    positivity

lemma avgLoss_nonneg {xs : List ℚ} {i : ℕ} {l : ℚ}
    (h : avgLoss xs i = some l) : 0 ≤ l := by
  unfold avgLoss rollingMean at h
  cases hw : windowAt 6 (losses xs) i with
  | none => rw [hw] at h; cases h
  | some ws =>
    rw [hw] at h
    cases h
    have hsum : 0 ≤ ws.sum :=
      List.sum_nonneg fun y hy => losses_nonneg y (windowAt_subset hw y hy)
    positivity

lemma mem_zipWith_sub {t s : List ℚ} {o : Option ℚ}
    (h : o ∈ List.zipWith (fun b a => some (b - a)) t s) :
    ∃ b ∈ t, ∃ a ∈ s, o = some (b - a) := by
  induction t generalizing s with
  | nil => simp at h
  | cons b t' ih =>
    cases s with
    | nil => simp at h
    | cons a s' =>
      rw [List.zipWith_cons_cons] at h
      rcases List.mem_cons.1 h with rfl | h'
      · exact ⟨b, List.mem_cons_self _ _, a, List.mem_cons_self _ _, rfl⟩
      · obtain ⟨b', hb', a', ha', rfl⟩ := ih h'
        exact ⟨b', List.mem_cons_of_mem _ hb', a', List.mem_cons_of_mem _ ha', rfl⟩

lemma diffs_const {xs : List ℚ} (hconst : ∀ x ∈ xs, ∀ y ∈ xs, x = y) :
    ∀ o ∈ diffs xs, o = none ∨ o = some 0 := by
  intro o ho
  cases xs with
  | nil => simp [diffs] at ho
  | cons x t =>
    unfold diffs at ho
    rcases List.mem_cons.1 ho with rfl | h'
    · exact Or.inl rfl
    · obtain ⟨b, hb, a, ha, rfl⟩ := mem_zipWith_sub h'
      refine Or.inr ?_
      have : b = a :=
        hconst b (List.mem_cons_of_mem _ hb) a ha
      rw [this, sub_self]

lemma gains_const_zero {xs : List ℚ} (hconst : ∀ x ∈ xs, ∀ y ∈ xs, x = y) :
    ∀ y ∈ gains xs, y = 0 := by
  intro y hy
  obtain ⟨o, ho, rfl⟩ := List.mem_map.1 hy
  rcases diffs_const hconst o ho with rfl | rfl
  · rfl
  · norm_num

lemma avgGain_const {xs : List ℚ} {i : ℕ} {g : ℚ}
    (hconst : ∀ x ∈ xs, ∀ y ∈ xs, x = y)
    (h : avgGain xs i = some g) : g = 0 := by
  unfold avgGain rollingMean at h
  cases hw : windowAt 6 (gains xs) i with
  | none => rw [hw] at h; cases h
  | some ws =>
    rw [hw] at h
    cases h
    have hsum : ws.sum = 0 :=
      List.sum_eq_zero fun y hy => gains_const_zero hconst y (windowAt_subset hw y hy)
    show ws.sum / ((6 : ℕ) : ℚ) = 0
    rw [hsum, zero_div]

/-- C4: wherever RSI is defined its value lies in [0,100]; when the
rolling average loss is 0 while some gain exists, RSI equals 100; and a
constant-price input yields RSI undefined-or-100, never a division
error. -/
theorem rsi_bounds (xs : List ℚ) (i : ℕ) :
    (∀ x, rsi xs i = some x → 0 ≤ x ∧ x ≤ 100) ∧
    (∀ g, avgLoss xs i = some 0 → avgGain xs i = some g → 0 < g →
      rsi xs i = some 100) ∧
    ((∀ x ∈ xs, ∀ y ∈ xs, x = y) → rsi xs i = none ∨ rsi xs i = some 100) := by
  refine ⟨?_, ?_, ?_⟩
  · intro x hx
    unfold rsi at hx
    cases hg : avgGain xs i with
    | none => rw [hg] at hx; cases hx
    | some g =>
      cases hl : avgLoss xs i with
      | none => rw [hg, hl] at hx; cases hx
      | some l =>
        rw [hg, hl] at hx
        dsimp only at hx
        have hg0 : 0 ≤ g := avgGain_nonneg hg
        have hl0 : 0 ≤ l := avgLoss_nonneg hl
        by_cases hlz : l = 0
        · rw [if_pos hlz] at hx
          by_cases hgz : g = 0
          · rw [if_pos hgz] at hx; cases hx
          · rw [if_neg hgz] at hx
            cases hx
            norm_num
        · rw [if_neg hlz] at hx
          cases hx
          have hlpos : 0 < l := lt_of_le_of_ne hl0 (Ne.symm hlz)
          have hrs : 0 ≤ g / l := div_nonneg hg0 hl0
          have hden : (0:ℚ) < 1 + g / l := by linarith
          have hfrac_pos : 0 < 100 / (1 + g / l) := by positivity
          have hfrac_le : 100 / (1 + g / l) ≤ 100 := by
            rw [div_le_iff₀ hden]
            nlinarith
          constructor <;> linarith
  · intro g hl hg hgpos
    unfold rsi
    rw [hg, hl]
    dsimp only
    rw [if_pos rfl, if_neg (ne_of_gt hgpos)]
  · intro hconst
    unfold rsi
    cases hg : avgGain xs i with
    | none => exact Or.inl rfl
    | some g =>
      cases hl : avgLoss xs i with
      | none => exact Or.inl rfl
      | some l =>
        have hgz : g = 0 := avgGain_const hconst hg
        have hlz : l = 0 := by
          unfold avgLoss rollingMean at hl
          cases hw : windowAt 6 (losses xs) i with
          | none => rw [hw] at hl; cases hl
          | some ws =>
            rw [hw] at hl
            cases hl
            have : ∀ y ∈ losses xs, y = 0 := by
              intro y hy
              obtain ⟨o, ho, rfl⟩ := List.mem_map.1 hy
              rcases diffs_const hconst o ho with rfl | rfl
              · rfl
              · norm_num
            have hsum : ws.sum = 0 :=
              List.sum_eq_zero fun y hy => this y (windowAt_subset hw y hy)
            show ws.sum / ((6 : ℕ) : ℚ) = 0
            rw [hsum, zero_div]
        subst hgz
        subst hlz
        dsimp only
        rw [if_pos rfl, if_pos rfl]
        exact Or.inl rfl

/-- Strictly rising closes used to witness the RSI claim. -/
def exCloses4 : List ℚ := [1, 2, 3, 4, 5, 6, 7]

/-- Witness for C4 on `exCloses4` at index 6: every loss is zero, the
average gain is 1, and RSI evaluates to 100. -/
theorem rsi_bounds_witness :
    avgLoss exCloses4 6 = some 0 ∧ avgGain exCloses4 6 = some 1 ∧
    rsi exCloses4 6 = some 100 := by
  have hl : avgLoss exCloses4 6 = some 0 := by
    norm_num [avgLoss, rollingMean, windowAt, losses, diffs, exCloses4]
  have hg : avgGain exCloses4 6 = some 1 := by
    norm_num [avgGain, rollingMean, windowAt, gains, diffs, exCloses4]
  exact ⟨hl, hg, (rsi_bounds exCloses4 6).2.1 1 hl hg (by norm_num)⟩

/-! ## Stochastic RSV (src/app.py lines 28–31) -/

/-- `low_min = df['Low'].rolling(window=9).min()` (line 28). -/
def lowMin (bars : List Bar) (i : ℕ) : Option ℚ :=
  rollingMin 9 (bars.map fun b => b.low) i

/-- `high_max = df['High'].rolling(window=9).max()` (line 29). -/
def highMax (bars : List Bar) (i : ℕ) : Option ℚ :=
  rollingMax 9 (bars.map fun b => b.high) i

/-- `df['RSV'] = (Close − low_min)/(high_max − low_min) × 100` (line 30).
The division carries no guard: when the rolling range is zero the float
quotient is `0/0 = NaN` (for data satisfying `low ≤ close ≤ high` the
numerator is forced to zero; data violating that invariant would give
`±∞`, equally not a defined oscillator value) — embedded as `none`. -/
def rsv (bars : List Bar) (i : ℕ) : Option ℚ :=
  match (bars.get? i).map (fun b => b.close), lowMin bars i, highMax bars i with
  | some c, some lo, some hi =>
      if hi - lo = 0 then none else some ((c - lo) / (hi - lo) * 100)
  | _, _, _ => none

/-- Nine identical flat bars: the rolling 9-bar range at index 8 is
zero. -/
def exBars3 : List Bar :=
  [⟨0, 10, 10, 10, 10, 1⟩, ⟨1, 10, 10, 10, 10, 1⟩, ⟨2, 10, 10, 10, 10, 1⟩,
   ⟨3, 10, 10, 10, 10, 1⟩, ⟨4, 10, 10, 10, 10, 1⟩, ⟨5, 10, 10, 10, 10, 1⟩,
   ⟨6, 10, 10, 10, 10, 1⟩, ⟨7, 10, 10, 10, 10, 1⟩, ⟨8, 10, 10, 10, 10, 1⟩]

/-- C3 counterexample: on nine flat bars the rolling range at index 8 is
zero, yet the code's RSV is undefined (`NaN` from `0/0`), not the claimed
defined value 50. -/
theorem rsv_zero_range_counterexample :
    highMax exBars3 8 = some 10 ∧ lowMin exBars3 8 = some 10 ∧
    rsv exBars3 8 = none := by
  have hhi : highMax exBars3 8 = some 10 := by
    norm_num [highMax, rollingMax, windowAt, exBars3, listMax, max_def]
  have hlo : lowMin exBars3 8 = some 10 := by
    norm_num [lowMin, rollingMin, windowAt, exBars3, listMin, min_def]
  refine ⟨hhi, hlo, ?_⟩
  unfold rsv
  rw [hhi, hlo]
  norm_num [exBars3]

/-- C3 amended: for every bar where the rolling 9-bar range is zero, the
stochastic RSV value is *undefined* (the unguarded float division yields
`NaN`, not an exception and not 50); when the range is non-zero RSV is
the guarded quotient. -/
theorem rsv_zero_range (bars : List Bar) (i : ℕ) (c lo hi : ℚ)
    (hc : (bars.get? i).map (fun b => b.close) = some c)
    (hlo : lowMin bars i = some lo)
    (hhi : highMax bars i = some hi) :
    (hi = lo → rsv bars i = none) ∧
    (hi ≠ lo → rsv bars i = some ((c - lo) / (hi - lo) * 100)) := by
  constructor
  · intro hrange
    unfold rsv
    rw [hc, hlo, hhi]
    simp [hrange]
  · intro hrange
    unfold rsv
    rw [hc, hlo, hhi]
    have : hi - lo ≠ 0 := sub_ne_zero_of_ne hrange
    simp [this]

/-- Witness for the amended C3 on the flat nine-bar series. -/
theorem rsv_zero_range_witness :
    ((10:ℚ) = 10 → rsv exBars3 8 = none) ∧
    ((10:ℚ) ≠ 10 → rsv exBars3 8 = some ((10 - 10) / (10 - 10) * 100)) := by
  refine rsv_zero_range exBars3 8 10 10 10 ?_ ?_ ?_
  · norm_num [exBars3]
  · norm_num [lowMin, rollingMin, windowAt, exBars3, listMin, min_def]
  · norm_num [highMax, rollingMax, windowAt, exBars3, listMax, max_def]

/-! ## Exponential smoothing: `Series.ewm(com=2, adjust=False).mean()`

With `adjust=False` (and the default `ignore_na=False`) pandas keeps a
running mean and the relative weight of the old mean: the weight decays
by `(1−α)` at every row once a first observation exists, the mean updates
to `(oldWt·y + α·x)/(oldWt + α)` at a defined row and the weight then
resets to 1; a `NaN` row re-emits the previous mean; rows before the
first observation emit `NaN`.  `α = 1/(1+com)`. -/

/-- Running state of the exponentially weighted mean. -/
structure EwmState where
  y : Option ℚ
  oldWt : ℚ
deriving DecidableEq, Repr

/-- `α = 1/(1+com)`; for `com=2` this is `1/3`. -/
def ewmAlpha (com : ℚ) : ℚ := 1 / (1 + com)

/-- One row of the `adjust=False` exponentially weighted mean. -/
def ewmStep (a : ℚ) (st : EwmState) (x? : Option ℚ) : EwmState × Option ℚ :=
  match st.y, x? with
  | none, none => (st, none)
  | none, some x => (⟨some x, 1⟩, some x)
  | some y, none => (⟨some y, st.oldWt * (1 - a)⟩, some y)
  | some y, some x =>
      let ow := st.oldWt * (1 - a)
      let ynew := (ow * y + a * x) / (ow + a)
      (⟨some ynew, 1⟩, some ynew)

/-- Fold `ewmStep` over a column. -/
def ewmGo (a : ℚ) (st : EwmState) : List (Option ℚ) → List (Option ℚ)
  | [] => []
  | x :: xs => (ewmStep a st x).2 :: ewmGo a (ewmStep a st x).1 xs

/-- `s.ewm(com=com, adjust=False).mean()` on a column that may contain
`NaN` entries. -/
def ewmMeanOpt (com : ℚ) (xs : List (Option ℚ)) : List (Option ℚ) :=
  ewmGo (ewmAlpha com) ⟨none, 1⟩ xs

/-- The `NaN`-free recursion underlying `adjust=False`:
`y₀ = x₀`, `yₜ = (1−α)·yₜ₋₁ + α·xₜ`. -/
def ewmGoPlain (a prev : ℚ) : List ℚ → List ℚ
  | [] => []
  | x :: xs => ((1 - a) * prev + a * x) :: ewmGoPlain a ((1 - a) * prev + a * x) xs

/-- `ewm(com, adjust=False).mean()` on a fully defined column. -/
def ewmMean (com : ℚ) (xs : List ℚ) : List ℚ :=
  match xs with
  | [] => []
  | x :: rest => x :: ewmGoPlain (ewmAlpha com) x rest

lemma ewmGo_some (a y : ℚ) (xs : List ℚ) (ha : 1 - a + a = 1) :
    ewmGo a ⟨some y, 1⟩ (xs.map some) = (ewmGoPlain a y xs).map some := by
  induction xs generalizing y with
  | nil => rfl
  | cons x t ih =>
    have hstep : ewmStep a ⟨some y, 1⟩ (some x) =
        (⟨some ((1 - a) * y + a * x), 1⟩, some ((1 - a) * y + a * x)) := by
      unfold ewmStep
      dsimp only
      have h1 : (1:ℚ) * (1 - a) = 1 - a := one_mul _
      rw [h1, ha, div_one]
    rw [List.map_cons]
    show (ewmStep a ⟨some y, 1⟩ (some x)).2 ::
        ewmGo a (ewmStep a ⟨some y, 1⟩ (some x)).1 (t.map some) = _
    rw [hstep]
    dsimp only
    rw [ih ((1 - a) * y + a * x)]
    rfl

lemma ewmGo_replicate_none (a : ℚ) (k : ℕ) (l : List (Option ℚ)) :
    ewmGo a ⟨none, 1⟩ (List.replicate k none ++ l) =
      List.replicate k none ++ ewmGo a ⟨none, 1⟩ l := by
  induction k with
  | zero => rfl
  | succ n ih =>
    rw [List.replicate_succ, List.cons_append]
    show (ewmStep a ⟨none, 1⟩ none).2 ::
        ewmGo a (ewmStep a ⟨none, 1⟩ none).1 (List.replicate n none ++ l) = _
    rw [show ewmStep a ⟨none, 1⟩ none = (⟨none, 1⟩, none) from rfl]
    rw [ih]
    rfl

lemma ewmMeanOpt_shape (com : ℚ) (k : ℕ) (xs : List ℚ)
    (ha : 1 - ewmAlpha com + ewmAlpha com = 1) :
    ewmMeanOpt com (List.replicate k none ++ xs.map some) =
      List.replicate k none ++ (ewmMean com xs).map some := by
  unfold ewmMeanOpt
  rw [ewmGo_replicate_none]
  congr 1
  cases xs with
  | nil => rfl
  | cons x t =>
    rw [List.map_cons]
    show (ewmStep (ewmAlpha com) ⟨none, 1⟩ (some x)).2 ::
        ewmGo (ewmAlpha com) (ewmStep (ewmAlpha com) ⟨none, 1⟩ (some x)).1 (t.map some) = _
    rw [show ewmStep (ewmAlpha com) ⟨none, 1⟩ (some x) = (⟨some x, 1⟩, some x) from rfl]
    rw [ewmGo_some _ _ _ ha]
    rfl

lemma ewmGoPlain_get_zero (a prev x : ℚ) {xs : List ℚ}
    (hx : xs.get? 0 = some x) :
    (ewmGoPlain a prev xs).get? 0 = some ((1 - a) * prev + a * x) := by
  cases xs with
  | nil => simp at hx
  | cons x0 t =>
    obtain rfl : x0 = x := by simpa using hx
    rfl

lemma ewmGoPlain_get_succ (a : ℚ) (xs : List ℚ) :
    ∀ (t : ℕ) (prev y x : ℚ),
      (ewmGoPlain a prev xs).get? t = some y → xs.get? (t + 1) = some x →
      (ewmGoPlain a prev xs).get? (t + 1) = some ((1 - a) * y + a * x) := by
  induction xs with
  | nil => intro t prev y x hy _; simp [ewmGoPlain] at hy
  | cons x0 t ih =>
    intro n prev y x hy hx
    cases n with
    | zero =>
      obtain rfl : (1 - a) * prev + a * x0 = y := by
        simpa [ewmGoPlain] using hy
      show (ewmGoPlain a ((1 - a) * prev + a * x0) t).get? 0 = _
      exact ewmGoPlain_get_zero a _ x (by simpa using hx)
    | succ m =>
      show (ewmGoPlain a ((1 - a) * prev + a * x0) t).get? (m + 1) = _
      exact ih m _ y x (by simpa [ewmGoPlain] using hy) (by simpa using hx)

lemma ewmMean_get_zero (com : ℚ) (xs : List ℚ) :
    (ewmMean com xs).get? 0 = xs.get? 0 := by
  cases xs with
  | nil => rfl
  | cons x t => rfl

lemma ewmMean_get_succ (com : ℚ) (xs : List ℚ) (t : ℕ) (y x : ℚ)
    (hy : (ewmMean com xs).get? t = some y) (hx : xs.get? (t + 1) = some x) :
    (ewmMean com xs).get? (t + 1) =
      some (y + ewmAlpha com * (x - y)) := by
  have hring : ∀ u v : ℚ, (1 - ewmAlpha com) * u + ewmAlpha com * v =
      u + ewmAlpha com * (v - u) := by intro u v; ring
  cases xs with
  | nil => simp [ewmMean] at hy
  | cons x0 rest =>
    cases t with
    | zero =>
      obtain rfl : x0 = y := by simpa [ewmMean] using hy
      show (ewmGoPlain (ewmAlpha com) x0 rest).get? 0 = _
      rw [ewmGoPlain_get_zero (ewmAlpha com) x0 x (by simpa using hx), hring]
    | succ m =>
      show (ewmGoPlain (ewmAlpha com) x0 rest).get? (m + 1) = _
      rw [ewmGoPlain_get_succ (ewmAlpha com) rest m x0 y x
        (by simpa [ewmMean] using hy) (by simpa using hx), hring]

/-! ## The K and D columns (src/app.py lines 30–32) -/

/-- The `RSV` column as a series aligned with the bars. -/
def rsvSeries (bars : List Bar) : List (Option ℚ) :=
  (List.range bars.length).map (rsv bars)

/-- `df['K'] = df['RSV'].ewm(com=2, adjust=False).mean()` (line 31). -/
def Kline (bars : List Bar) : List (Option ℚ) := ewmMeanOpt 2 (rsvSeries bars)

/-- `df['D'] = df['K'].ewm(com=2, adjust=False).mean()` (line 32). -/
def Dline (bars : List Bar) : List (Option ℚ) := ewmMeanOpt 2 (Kline bars)

/-- C6: on a series whose RSV column consists of an undefined prefix
followed by defined values, %K is exactly the recursive exponential
smoothing of the defined RSV values with `α = 1/(1+com) = 1/3`
(`K_t = K_{t−1} + α·(RSV_t − K_{t−1})`), seeded by the first defined RSV
value, and %D is the same recursive smoothing applied to %K. -/
theorem kd_recursive_smoothing (bars : List Bar) (k : ℕ) (rs : List ℚ)
    (hrsv : rsvSeries bars = List.replicate k none ++ rs.map some) :
    Kline bars = List.replicate k none ++ (ewmMean 2 rs).map some ∧
    Dline bars = List.replicate k none ++ (ewmMean 2 (ewmMean 2 rs)).map some ∧
    (ewmMean 2 rs).get? 0 = rs.get? 0 ∧
    (∀ t y x, (ewmMean 2 rs).get? t = some y → rs.get? (t + 1) = some x →
      (ewmMean 2 rs).get? (t + 1) = some (y + (1/3) * (x - y))) ∧
    (∀ t y x, (ewmMean 2 (ewmMean 2 rs)).get? t = some y →
      (ewmMean 2 rs).get? (t + 1) = some x →
      (ewmMean 2 (ewmMean 2 rs)).get? (t + 1) = some (y + (1/3) * (x - y))) := by
  have ha : 1 - ewmAlpha 2 + ewmAlpha 2 = 1 := by norm_num [ewmAlpha]
  have halpha : ewmAlpha 2 = 1/3 := by norm_num [ewmAlpha]
  have hK : Kline bars = List.replicate k none ++ (ewmMean 2 rs).map some := by
    unfold Kline
    rw [hrsv]
    exact ewmMeanOpt_shape 2 k rs ha
  have hD : Dline bars =
      List.replicate k none ++ (ewmMean 2 (ewmMean 2 rs)).map some := by
    unfold Dline
    rw [hK]
    exact ewmMeanOpt_shape 2 k (ewmMean 2 rs) ha
  refine ⟨hK, hD, ewmMean_get_zero 2 rs, ?_, ?_⟩
  · intro t y x hy hx
    rw [ewmMean_get_succ 2 rs t y x hy hx, halpha]
  · intro t y x hy hx
    rw [ewmMean_get_succ 2 (ewmMean 2 rs) t y x hy hx, halpha]

/-- Nine bars with a fixed 0–100 range and mid closes: RSV is undefined
for the first eight bars and equals 50 at the ninth. -/
def exBars6 : List Bar :=
  [⟨0, 50, 100, 0, 50, 1⟩, ⟨1, 50, 100, 0, 50, 1⟩, ⟨2, 50, 100, 0, 50, 1⟩,
   ⟨3, 50, 100, 0, 50, 1⟩, ⟨4, 50, 100, 0, 50, 1⟩, ⟨5, 50, 100, 0, 50, 1⟩,
   ⟨6, 50, 100, 0, 50, 1⟩, ⟨7, 50, 100, 0, 50, 1⟩, ⟨8, 50, 100, 0, 50, 1⟩]

/-- Witness for C6 on `exBars6` with eight undefined leading RSVs and the
single defined RSV value 50. -/
theorem kd_recursive_smoothing_witness :
    Kline exBars6 = List.replicate 8 none ++ (ewmMean 2 [50]).map some ∧
    Dline exBars6 =
      List.replicate 8 none ++ (ewmMean 2 (ewmMean 2 [50])).map some ∧
    (ewmMean 2 [(50:ℚ)]).get? 0 = [(50:ℚ)].get? 0 ∧
    (∀ t y x, (ewmMean 2 [(50:ℚ)]).get? t = some y →
      [(50:ℚ)].get? (t + 1) = some x →
      (ewmMean 2 [(50:ℚ)]).get? (t + 1) = some (y + (1/3) * (x - y))) ∧
    (∀ t y x, (ewmMean 2 (ewmMean 2 [(50:ℚ)])).get? t = some y →
      (ewmMean 2 [(50:ℚ)]).get? (t + 1) = some x →
      (ewmMean 2 (ewmMean 2 [(50:ℚ)])).get? (t + 1) =
        some (y + (1/3) * (x - y))) := by
  refine kd_recursive_smoothing exBars6 8 [50] ?_
  norm_num [rsvSeries, exBars6, List.range_succ, rsv, lowMin, highMax,
    rollingMin, rollingMax, windowAt, listMin, listMax, min_def, max_def,
    List.replicate_succ]

/-! ## Bollinger bands (src/app.py lines 34–37)

`std = df['Close'].rolling(window=20).std()` uses pandas' default
`ddof=1`, i.e. the *sample* standard deviation `√(Σ(x−x̄)²/(w−1))`.
Since the square root of a rational is irrational in general, the rolling
variance is carried exactly in `ℚ` and `Real.sqrt` is applied only at the
band boundary. -/

/-- Rolling sample variance (`ddof = 1`, pandas default): the square of
the code's `rolling(window=w).std()`. -/
def rollingVarSample (w : ℕ) (xs : List ℚ) (i : ℕ) : Option ℚ :=
  (windowAt w xs i).map fun ws =>
    (ws.map fun x => (x - ws.sum / (w : ℚ)) ^ 2).sum / ((w : ℚ) - 1)

/-- Rolling population variance (divisor `w`): the square of the
"population standard deviation" named by the spec; used only to compare
the spec's formula against the code's. -/
def rollingVarPop (w : ℕ) (xs : List ℚ) (i : ℕ) : Option ℚ :=
  (windowAt w xs i).map fun ws =>
    (ws.map fun x => (x - ws.sum / (w : ℚ)) ^ 2).sum / (w : ℚ)

/-- `df['BB_Upper'] = df['MA20'] + (std * 2)` (line 36). -/
noncomputable def bbUpper (xs : List ℚ) (i : ℕ) : Option ℝ :=
  match rollingMean 20 xs i, rollingVarSample 20 xs i with
  | some m, some v => some ((m : ℝ) + Real.sqrt (v : ℝ) * 2)
  | _, _ => none

/-- `df['BB_Lower'] = df['MA20'] - (std * 2)` (line 37). -/
noncomputable def bbLower (xs : List ℚ) (i : ℕ) : Option ℝ :=
  match rollingMean 20 xs i, rollingVarSample 20 xs i with
  | some m, some v => some ((m : ℝ) - Real.sqrt (v : ℝ) * 2)
  | _, _ => none

/-- Modelled from the spec: the upper band with `band = k × population
standard deviation` ("band = `k × population standard deviation` over the
same rolling window"); only used to compare against the code's
`bbUpper`. -/
noncomputable def bbUpperSpec (xs : List ℚ) (i : ℕ) : Option ℝ :=
  match rollingMean 20 xs i, rollingVarPop 20 xs i with
  | some m, some v => some ((m : ℝ) + Real.sqrt (v : ℝ) * 2)
  | _, _ => none

lemma rollingVarSample_nonneg {xs : List ℚ} {i : ℕ} {v : ℚ}
    (h : rollingVarSample 20 xs i = some v) : 0 ≤ v := by
  unfold rollingVarSample at h
  cases hw : windowAt 20 xs i with
  | none => rw [hw] at h; cases h
  | some ws =>
    rw [hw] at h
    cases h
    show (0:ℚ) ≤ (ws.map fun x => (x - ws.sum / ((20:ℕ) : ℚ)) ^ 2).sum / (((20:ℕ) : ℚ) - 1)
    have hsum : 0 ≤ (ws.map fun x => (x - ws.sum / ((20:ℕ) : ℚ)) ^ 2).sum := by
      refine List.sum_nonneg ?_
      intro y hy
      obtain ⟨x, _, rfl⟩ := List.mem_map.1 hy
      exact sq_nonneg _
    have : ((20:ℕ) : ℚ) - 1 = 19 := by norm_num
    rw [this]
    positivity

/-- Twenty closes: nineteen at 1 and one at 21.  The window mean is 2,
the sample variance 20 and the population variance 19. -/
def exCloses5 : List ℚ :=
  [1, 1, 1, 1, 1, 1, 1, 1, 1, 1, 1, 1, 1, 1, 1, 1, 1, 1, 1, 21]

lemma exCloses5_mean : rollingMean 20 exCloses5 19 = some 2 := by
  norm_num [rollingMean, windowAt, exCloses5]

lemma exCloses5_varSample : rollingVarSample 20 exCloses5 19 = some 20 := by
  norm_num [rollingVarSample, windowAt, exCloses5]

lemma exCloses5_varPop : rollingVarPop 20 exCloses5 19 = some 19 := by
  norm_num [rollingVarPop, windowAt, exCloses5]

/-- C5 counterexample: on `exCloses5` at index 19 the code's upper band
uses the *sample* standard deviation `√20`, while the spec's formula with
the *population* standard deviation gives `√19`; the two differ. -/
theorem bollinger_population_counterexample :
    bbUpper exCloses5 19 ≠ bbUpperSpec exCloses5 19 := by
  unfold bbUpper bbUpperSpec
  rw [exCloses5_mean, exCloses5_varSample, exCloses5_varPop]
  dsimp only
  intro h
  have hsqrt : Real.sqrt ((20:ℚ) : ℝ) = Real.sqrt ((19:ℚ) : ℝ) := by
    have := Option.some.inj h
    linarith
  rw [Real.sqrt_inj (by norm_num) (by norm_num)] at hsqrt
  norm_num at hsqrt

/-- C5 amended: wherever the Bollinger bands are defined, the middle band
is SMA(20) of the close, the half-width `band` is twice the *sample*
standard deviation of the window (`ddof = 1`, i.e. `band² = 4·variance`
with divisor 19), and upper = middle + band, lower = middle − band. -/
theorem bollinger_sample_std (xs : List ℚ) (i : ℕ) (m v : ℚ)
    (hm : rollingMean 20 xs i = some m)
    (hv : rollingVarSample 20 xs i = some v) :
    ∃ band : ℝ, 0 ≤ band ∧ band ^ 2 = 4 * (v : ℝ) ∧
      bbUpper xs i = some ((m : ℝ) + band) ∧
      bbLower xs i = some ((m : ℝ) - band) := by
  have hv0 : (0:ℝ) ≤ (v : ℝ) := by
    exact_mod_cast rollingVarSample_nonneg hv
  refine ⟨Real.sqrt (v : ℝ) * 2, ?_, ?_, ?_, ?_⟩
  · positivity
  · have : Real.sqrt ((v:ℝ)) ^ 2 = (v : ℝ) := Real.sq_sqrt hv0
    nlinarith [this]
  · unfold bbUpper
    rw [hm, hv]
  · unfold bbLower
    rw [hm, hv]

/-- Witness for the amended C5 on `exCloses5` at index 19. -/
theorem bollinger_sample_std_witness :
    ∃ band : ℝ, 0 ≤ band ∧ band ^ 2 = 4 * ((20:ℚ) : ℝ) ∧
      bbUpper exCloses5 19 = some (((2:ℚ) : ℝ) + band) ∧
      bbLower exCloses5 19 = some (((2:ℚ) : ℝ) - band) :=
  bollinger_sample_std exCloses5 19 2 20 exCloses5_mean exCloses5_varSample

/-! ## Indicator rows and the fetch pipeline (src/app.py lines 13–69) -/

/-- One row of the indicator frame produced by
`calculate_indicators_manual`.  The source's `BB_Upper`/`BB_Lower`
columns equal `ma20 ± 2·√bbVar` (see `bbUpper`/`bbLower` above); the row
stores the rolling sample variance `bbVar` exactly in `ℚ`, which carries
the same definedness and determines the bands, since the square root
itself is irrational. -/
structure IndRow where
  bar : Bar
  ma5 : Option ℚ
  ma20 : Option ℚ
  rsiV : Option ℚ
  rsvV : Option ℚ
  kV : Option ℚ
  dV : Option ℚ
  bbVar : Option ℚ
deriving DecidableEq, Repr

/-- `calculate_indicators_manual(df)` (src/app.py lines 13–39): each bar
extended with MA5, MA20, RSI, RSV, K, D and the Bollinger columns. -/
def calculateIndicatorsManual (bars : List Bar) : List IndRow :=
  (List.range bars.length).map fun i =>
    { bar := (bars.get? i).getD ⟨0, 0, 0, 0, 0, 0⟩
      ma5 := rollingMean 5 (bars.map fun b => b.close) i
      ma20 := rollingMean 20 (bars.map fun b => b.close) i
      rsiV := rsi (bars.map fun b => b.close) i
      rsvV := rsv bars i
      kV := ((Kline bars).get? i).join
      dV := ((Dline bars).get? i).join
      bbVar := rollingVarSample 20 (bars.map fun b => b.close) i }

/-- The post-decode pipeline of `fetch_fugle_data` (src/app.py lines
49–66): empty payload → error; resample; fewer than 20 bars → error;
otherwise the indicator frame.  The pair mirrors the function's
`(df, error_message)` return convention. -/
def fetchFugleData (candles : List Candle) (P : ℕ) :
    Option (List IndRow) × Option String :=
  if candles = [] then
    (none, some "❌ 抓不到資料 (請確認代號或是否開盤)")
  else if (resample P candles).length < 20 then
    (none, some "⚠️ 資料筆數不足 (<20筆)，無法計算指標")
  else
    (some (calculateIndicatorsManual (resample P candles)), none)

/-- C2 counterexample: for a one-candle input the resampled series has a
single bar, and `fetch_fugle_data` aborts with the insufficient-data
error and *no* series — it does not return the ResampledSeries as the
claim states. -/
theorem insufficient_data_aborts_counterexample :
    fetchFugleData [⟨0, 1, 1, 1, 1, 1⟩] 1 =
      (none, some "⚠️ 資料筆數不足 (<20筆)，無法計算指標") := by
  decide

/-- C2 amended: when the resampled series has fewer than 20 bars,
`fetch_fugle_data` returns an error result and no series; only with at
least 20 bars does it return the indicator-extended series (whose entries
are undefined where history is insufficient). -/
theorem insufficient_data_policy (candles : List Candle) (P : ℕ)
    (hne : candles ≠ []) :
    ((resample P candles).length < 20 →
      fetchFugleData candles P =
        (none, some "⚠️ 資料筆數不足 (<20筆)，無法計算指標")) ∧
    (¬ (resample P candles).length < 20 →
      fetchFugleData candles P =
        (some (calculateIndicatorsManual (resample P candles)), none)) := by
  constructor
  · intro h
    unfold fetchFugleData
    rw [if_neg hne, if_pos h]
  · intro h
    unfold fetchFugleData
    rw [if_neg hne, if_neg h]

/-- Witness for the amended C2 on the one-candle input. -/
theorem insufficient_data_policy_witness :
    ((resample 1 [Candle.mk 0 1 1 1 1 1]).length < 20 →
      fetchFugleData [Candle.mk 0 1 1 1 1 1] 1 =
        (none, some "⚠️ 資料筆數不足 (<20筆)，無法計算指標")) ∧
    (¬ (resample 1 [Candle.mk 0 1 1 1 1 1]).length < 20 →
      fetchFugleData [Candle.mk 0 1 1 1 1 1] 1 =
        (some (calculateIndicatorsManual (resample 1 [Candle.mk 0 1 1 1 1 1])),
          none)) :=
  insufficient_data_policy [Candle.mk 0 1 1 1 1 1] 1 (by decide)

/-! ## Local signal scan (src/app.py lines 72–106)

The reason strings of the source are f-strings; the embedding keeps them
as tags carrying the interpolated numeric arguments (`kdGold k d`
abstracts `f"🔸 KD 金叉 ({k:.1f} > {d:.1f})"`, dropping only the decimal
formatting), so identity and order of the emitted reasons are
preserved. -/

/-- A reason emitted by `local_signal_scan`, in source order of the rule
blocks: KD cross (`metric` golden/death plus the oversold note), RSI
extremes, MA position. -/
inductive Reason where
  | kdGold : ℚ → ℚ → Reason
  | kdDead : ℚ → ℚ → Reason
  | kdOversold : Reason
  | rsiOversold : Reason
  | rsiOverheat : Reason
  | aboveMA : Reason
  | belowMA : Reason
deriving DecidableEq, Repr

/-- The integer score accumulated by `local_signal_scan`: ±1 from the KD
cross (when K and D are defined) and ±1 from the close-vs-MA20 test
(when MA20 is defined); the RSI block never changes the score. -/
def scanScore (last : IndRow) : ℤ :=
  (match last.kV, last.dV with
   | some k, some d => if k > d then 1 else -1
   | _, _ => 0) +
  (match last.ma20 with
   | some m => if last.bar.close > m then 1 else -1
   | none => 0)

/-- The reasons list of `local_signal_scan`, in the code's append order:
KD block first, then RSI block, then MA block; a block whose indicator is
undefined contributes nothing. -/
def scanSignals (last : IndRow) : List Reason :=
  (match last.kV, last.dV with
   | some k, some d =>
       (if k > d then [Reason.kdGold k d] else [Reason.kdDead k d]) ++
       (if k < 20 then [Reason.kdOversold] else [])
   | _, _ => []) ++
  (match last.rsiV with
   | some r =>
       if r < 25 then [Reason.rsiOversold]
       else if r > 75 then [Reason.rsiOverheat]
       else []
   | none => []) ++
  (match last.ma20 with
   | some m =>
       if last.bar.close > m then [Reason.aboveMA] else [Reason.belowMA]
   | none => [])

/-- `local_signal_scan(df)` (lines 72–106): `None` or an empty frame
yields the waiting-for-data sentinel; otherwise the last row is scored
and mapped to a label/colour through the fixed thresholds. -/
def localSignalScan (df : Option (List IndRow)) : String × String × List Reason :=
  match df with
  | none => ("等待數據...", "grey", [])
  | some rows =>
    match rows.getLast? with
    | none => ("等待數據...", "grey", [])
    | some last =>
      let score := scanScore last
      let signals := scanSignals last
      if score ≥ 2 then ("🚀 強力多頭訊號", "success", signals)
      else if score ≥ 1 then ("📈 偏多震盪", "info", signals)
      else if score ≤ -2 then ("🐻 強力空頭訊號", "error", signals)
      else if score ≤ -1 then ("📉 偏空震盪", "warning", signals)
      else ("⚖️ 盤整 / 訊號不明", "secondary", signals)

/-- C10: for a `None` input or an input with zero rows, the signal
scanner returns the fixed waiting-for-data sentinel (message
"等待數據...", colour "grey", empty reasons) without reading any
indicator value. -/
theorem empty_input_sentinel :
    localSignalScan none = ("等待數據...", "grey", []) ∧
    localSignalScan (some []) = ("等待數據...", "grey", []) :=
  ⟨rfl, rfl⟩

/-- The indicator row of claim C7: close 105, MA20 100, K 30, D 20,
RSI 50, all defined. -/
def exRow7 : IndRow :=
  { bar := ⟨0, 105, 106, 100, 105, 1⟩
    ma5 := some 103
    ma20 := some 100
    rsiV := some 50
    rsvV := some 60
    kV := some 30
    dV := some 20
    bbVar := some 1 }

/-- C7 counterexample: at the claimed row the scanner does yield score
+2 / strong bullish, but it emits the bullish-stochastic-cross reason
*before* the above-long-MA reason — not the claimed order. -/
theorem scorer_reason_order_counterexample :
    localSignalScan (some [exRow7]) =
      ("🚀 強力多頭訊號", "success", [Reason.kdGold 30 20, Reason.aboveMA]) ∧
    [Reason.kdGold 30 20, Reason.aboveMA] ≠
      [Reason.aboveMA, Reason.kdGold 30 20] := by
  decide

/-- C7 amended: for an indicator row with close=105, MA_long=100, K=30,
D=20, RSI=50 (all defined) the scorer returns score +2 and the
strong-bullish label, with the reasons list containing exactly the
bullish-stochastic-cross reason followed by the above-long-MA reason, in
that order. -/
theorem scorer_strong_bullish (r : IndRow)
    (hclose : r.bar.close = 105) (hma : r.ma20 = some 100)
    (hk : r.kV = some 30) (hd : r.dV = some 20) (hrsi : r.rsiV = some 50) :
    scanScore r = 2 ∧
    localSignalScan (some [r]) =
      ("🚀 強力多頭訊號", "success", [Reason.kdGold 30 20, Reason.aboveMA]) := by
  have hscore : scanScore r = 2 := by
    unfold scanScore
    rw [hk, hd, hma, hclose]
    norm_num
  have hsignals : scanSignals r = [Reason.kdGold 30 20, Reason.aboveMA] := by
    unfold scanSignals
    rw [hk, hd, hrsi, hma, hclose]
    norm_num
  refine ⟨hscore, ?_⟩
  unfold localSignalScan
  dsimp only [List.getLast?]
  rw [List.getLast_singleton, hscore, hsignals]
  norm_num

/-- Witness for the amended C7 at the concrete row `exRow7`. -/
theorem scorer_strong_bullish_witness :
    scanScore exRow7 = 2 ∧
    localSignalScan (some [exRow7]) =
      ("🚀 強力多頭訊號", "success", [Reason.kdGold 30 20, Reason.aboveMA]) :=
  scorer_strong_bullish exRow7 rfl rfl rfl rfl rfl

/-! ## Narrative-collaborator payload

`src/app.py` lines 131–133: `recent = df.tail(5)[cols];
json_data = recent.to_json(orient="index")` — pandas `to_json`
serialises a `NaN` cell as JSON `null`.

`src/app_pro.py` lines 107–113: `output_df = df.tail(5);
output_df = output_df.fillna("資料不足"); output_df.to_dict(...)` — every
`NaN` cell becomes the literal placeholder string before serialisation.

A serialised cell is embedded as `Cell`; `sqrtVal a b v` is the exact
value `a + b·√v` of a Bollinger-band cell (whose float value is built
from a square root, see `bbUpper`). -/

/-- One serialised JSON cell. -/
inductive Cell where
  | num : ℚ → Cell
  | sqrtVal : ℚ → ℚ → ℚ → Cell
  | str : String → Cell
  | null : Cell
deriving DecidableEq, Repr

/-- `df.tail(5)`: the last `min 5 (length)` rows. -/
def tail5 (l : List IndRow) : List IndRow := l.drop (l.length - 5)

/-- A possibly-`NaN` numeric cell under `to_json`: `NaN ↦ null`. -/
def cellApp (o : Option ℚ) : Cell := o.elim Cell.null Cell.num

/-- A possibly-`NaN` numeric cell under `fillna("資料不足")`. -/
def cellPro (o : Option ℚ) : Cell := o.elim (Cell.str "資料不足") Cell.num

/-- The `BB_Upper` cell (`ma20 + 2√bbVar`) under `to_json`. -/
def bbUpperCellApp (r : IndRow) : Cell :=
  match r.ma20, r.bbVar with
  | some m, some v => Cell.sqrtVal m 2 v
  | _, _ => Cell.null

/-- The `BB_Lower` cell (`ma20 − 2√bbVar`) under `to_json`. -/
def bbLowerCellApp (r : IndRow) : Cell :=
  match r.ma20, r.bbVar with
  | some m, some v => Cell.sqrtVal m (-2) v
  | _, _ => Cell.null

/-- The `BB_Upper` cell under `fillna("資料不足")`. -/
def bbUpperCellPro (r : IndRow) : Cell :=
  match r.ma20, r.bbVar with
  | some m, some v => Cell.sqrtVal m 2 v
  | _, _ => Cell.str "資料不足"

/-- The `BB_Lower` cell under `fillna("資料不足")`. -/
def bbLowerCellPro (r : IndRow) : Cell :=
  match r.ma20, r.bbVar with
  | some m, some v => Cell.sqrtVal m (-2) v
  | _, _ => Cell.str "資料不足"

/-- One row of app.py's payload, column order
`['Open','Close','Volume','MA5','MA20','RSI','K','D','BB_Upper',
'BB_Lower']` (line 131). -/
def rowCellsApp (r : IndRow) : List Cell :=
  [Cell.num r.bar.opn, Cell.num r.bar.close, Cell.num r.bar.volume,
   cellApp r.ma5, cellApp r.ma20, cellApp r.rsiV, cellApp r.kV,
   cellApp r.dV, bbUpperCellApp r, bbLowerCellApp r]

/-- One row of app_pro's payload over the common OHLCV+indicator
columns (the pro variant serialises its whole frame, whose extra
pandas_ta columns live outside `src/`; the fillna replacement acts on
every cell uniformly). -/
def rowCellsPro (r : IndRow) : List Cell :=
  [Cell.num r.bar.opn, Cell.num r.bar.close, Cell.num r.bar.volume,
   cellPro r.ma5, cellPro r.ma20, cellPro r.rsiV, cellPro r.kV,
   cellPro r.dV, bbUpperCellPro r, bbLowerCellPro r]

/-- The app.py payload rows (`df.tail(5)[cols].to_json`). -/
def payloadApp (df : List IndRow) : List (List Cell) :=
  (tail5 df).map rowCellsApp

/-- The app_pro payload rows (`df.tail(5).fillna("資料不足").to_dict`). -/
def payloadPro (df : List IndRow) : List (List Cell) :=
  (tail5 df).map rowCellsPro

/-- A six-row indicator frame whose early rows lack MA20 (as every
pipeline frame of fewer than 24 bars does in its tail window). -/
def exDf9 : List IndRow :=
  [⟨⟨0, 1, 1, 1, 1, 1⟩, some 1, none, some 1, none, none, none, none⟩,
   ⟨⟨1, 1, 1, 1, 1, 1⟩, some 1, none, some 1, none, none, none, none⟩,
   ⟨⟨2, 1, 1, 1, 1, 1⟩, some 1, none, some 1, none, none, none, none⟩,
   ⟨⟨3, 1, 1, 1, 1, 1⟩, some 1, none, some 1, none, none, none, none⟩,
   ⟨⟨4, 1, 1, 1, 1, 1⟩, some 1, none, some 1, none, none, none, none⟩,
   ⟨⟨5, 1, 1, 1, 1, 1⟩, some 1, some 1, some 1, some 50, some 50, some 50,
     some 0⟩]

/-- C9 counterexample: app.py's payload (`to_json`) emits an undefined
MA20 value of the last five bars as JSON `null` — not as a string
placeholder. -/
theorem payload_null_counterexample :
    Cell.null ∈ (payloadApp exDf9).flatten := by
  decide

/-- C9 amended: both payloads contain exactly the most recent five bars;
app_pro's payload (`fillna`) replaces every undefined value by the
literal string "資料不足", so every cell is a number or that placeholder
and never null/undefined; app.py's payload (`to_json`) instead emits
undefined values as JSON `null`. -/
theorem payload_tail_and_placeholder (df : List IndRow) (h5 : 5 ≤ df.length) :
    (payloadPro df).length = 5 ∧ (payloadApp df).length = 5 ∧
    (∀ j, j < 5 → (payloadPro df).get? j =
      (df.get? (df.length - 5 + j)).map rowCellsPro) ∧
    (∀ j, j < 5 → (payloadApp df).get? j =
      (df.get? (df.length - 5 + j)).map rowCellsApp) ∧
    (∀ row ∈ payloadPro df, ∀ cell ∈ row,
      ((∃ q, cell = Cell.num q) ∨ (∃ a b v, cell = Cell.sqrtVal a b v) ∨
        cell = Cell.str "資料不足") ∧ cell ≠ Cell.null) := by
  have hlen : (tail5 df).length = 5 := by
    unfold tail5
    rw [List.length_drop]
    omega
  refine ⟨?_, ?_, ?_, ?_, ?_⟩
  · unfold payloadPro
    rw [List.length_map, hlen]
  · unfold payloadApp
    rw [List.length_map, hlen]
  · intro j _
    unfold payloadPro tail5
    rw [List.get?_map, List.get?_drop]
  · intro j _
    unfold payloadApp tail5
    rw [List.get?_map, List.get?_drop]
  · intro row hrow cell hcell
    obtain ⟨r, _, rfl⟩ := List.mem_map.1 hrow
    have hcases :
        (∃ q, cell = Cell.num q) ∨ (∃ a b v, cell = Cell.sqrtVal a b v) ∨
          cell = Cell.str "資料不足" := by
      unfold rowCellsPro at hcell
      simp only [List.mem_cons, List.not_mem_nil, or_false] at hcell
      rcases hcell with rfl | rfl | rfl | rfl | rfl | rfl | rfl | rfl | rfl | rfl
      · exact Or.inl ⟨_, rfl⟩
      · exact Or.inl ⟨_, rfl⟩
      · exact Or.inl ⟨_, rfl⟩
      · unfold cellPro
        cases r.ma5 <;> [exact Or.inr (Or.inr rfl); exact Or.inl ⟨_, rfl⟩]
      · unfold cellPro
        cases r.ma20 <;> [exact Or.inr (Or.inr rfl); exact Or.inl ⟨_, rfl⟩]
      · unfold cellPro
        cases r.rsiV <;> [exact Or.inr (Or.inr rfl); exact Or.inl ⟨_, rfl⟩]
      · unfold cellPro
        cases r.kV <;> [exact Or.inr (Or.inr rfl); exact Or.inl ⟨_, rfl⟩]
      · unfold cellPro
        cases r.dV <;> [exact Or.inr (Or.inr rfl); exact Or.inl ⟨_, rfl⟩]
      · unfold bbUpperCellPro
        rcases hm : r.ma20 with _ | m <;> rcases hv : r.bbVar with _ | v
        · exact Or.inr (Or.inr rfl)
        · exact Or.inr (Or.inr rfl)
        · exact Or.inr (Or.inr rfl)
        · exact Or.inr (Or.inl ⟨_, _, _, rfl⟩)
      · unfold bbLowerCellPro
        rcases hm : r.ma20 with _ | m <;> rcases hv : r.bbVar with _ | v
        · exact Or.inr (Or.inr rfl)
        · exact Or.inr (Or.inr rfl)
        · exact Or.inr (Or.inr rfl)
        · exact Or.inr (Or.inl ⟨_, _, _, rfl⟩)
    refine ⟨hcases, ?_⟩
    rcases hcases with ⟨q, rfl⟩ | ⟨a, b, v, rfl⟩ | rfl <;> intro hnull <;> cases hnull

/-- Witness for the amended C9 on the six-row frame `exDf9`. -/
theorem payload_tail_and_placeholder_witness :
    (payloadPro exDf9).length = 5 ∧ (payloadApp exDf9).length = 5 ∧
    (∀ j, j < 5 → (payloadPro exDf9).get? j =
      (exDf9.get? (exDf9.length - 5 + j)).map rowCellsPro) ∧
    (∀ j, j < 5 → (payloadApp exDf9).get? j =
      (exDf9.get? (exDf9.length - 5 + j)).map rowCellsApp) ∧
    (∀ row ∈ payloadPro exDf9, ∀ cell ∈ row,
      ((∃ q, cell = Cell.num q) ∨ (∃ a b v, cell = Cell.sqrtVal a b v) ∨
        cell = Cell.str "資料不足") ∧ cell ≠ Cell.null) :=
  payload_tail_and_placeholder exDf9 (by decide)

end StockDash
